import Mathlib

/-!
Verification development for the config-cpp library.

The development embeds the library's core data model and the operations the
checked properties speak about:

* `Node` — the tagged-union configuration tree of
  `src/headers/config-cpp/node.h` (`std::variant` over Null, String, Boolean,
  Integer, Floating, Sequence, Object).  `Sequence` is `std::vector<Node>`,
  modelled as a `List Node`; `Object` is `std::unordered_map<std::string,
  Node>`, modelled as an association list with unique keys (the map has no
  observable order).
* `Fault` — the exceptions the library throws, by exception class:
  `Config::NodeError`, `std::out_of_range` (thrown by
  `unordered_map::at` in the read-only subscript), and the codec errors
  `ParseError` / `DumpError`.
* the member functions `operator[]` (string and index forms, mutable and
  const), `Push`, `Length`, `Contains`, `ValueOr`, and the As/To accessors,
  as explicit state-passing functions returning `Except Fault`.
* the YAML parse conversion of `src/module/format/yaml/source/parse.cc` and
  the two JSON codec implementations
  (`src/module/format/json/source/{parse,dump}.cc` and
  `src/sources/format/json/{parse,dump}.cc`).

Machine integers are modelled as `Int`/`Nat` with explicit reductions modulo
`2^64` where the code converts between widths.  `double` payloads are
modelled by `F64`: an exact rational for a finite value, plus the non-finite
values NaN and the two infinities, which is the granularity the JSON dump
behaviour distinguishes.
-/

/-- Model of a C++ `double` payload: a finite value held exactly as a
rational, or one of the non-finite IEEE values.  The JSON library serialises
every finite double to a shortest decimal form that parses back to the same
double, so finite values round-trip exactly; NaN and the infinities do not
have a JSON form. -/
inductive F64
  | finite (val : Rat)
  | nan
  | inf
  | ninf
deriving DecidableEq, Repr

/-- Whether an `F64` is a finite value. -/
def F64.isFinite : F64 → Bool
  | .finite _ => true
  | _ => false

/-- The exceptions the library's operations throw, by exception class.
`nodeError` is `Config::NodeError`; `stdOutOfRange` is the `std::out_of_range`
that `std::unordered_map::at` raises in the read-only string subscript;
`parseError` and `dumpError` are the codec exception classes. -/
inductive Fault
  | nodeError (message : String)
  | stdOutOfRange (key : String)
  | parseError (message : String)
  | dumpError (message : String)
deriving DecidableEq, Repr

/-- The Node tree of `src/headers/config-cpp/node.h`: a closed union over the
seven variants.  `object` is an association list standing for the
`std::unordered_map` payload: keys are unique and the order of entries is not
observable through the map interface. -/
inductive Node
  | null
  | string (s : String)
  | boolean (b : Bool)
  | integer (i : Int)
  | floating (f : F64)
  | sequence (l : List Node)
  | object (entries : List (String × Node))

/-- `Node::IsNull`. -/
def Node.isNull : Node → Bool
  | .null => true
  | _ => false

/-- `Node::IsString`. -/
def Node.isString : Node → Bool
  | .string _ => true
  | _ => false

/-- `Node::IsBoolean`. -/
def Node.isBoolean : Node → Bool
  | .boolean _ => true
  | _ => false

/-- `Node::IsInteger`. -/
def Node.isInteger : Node → Bool
  | .integer _ => true
  | _ => false

/-- `Node::IsFloating`. -/
def Node.isFloating : Node → Bool
  | .floating _ => true
  | _ => false

/-- `Node::IsSequence`. -/
def Node.isSequence : Node → Bool
  | .sequence _ => true
  | _ => false

/-- `Node::IsObject`. -/
def Node.isObject : Node → Bool
  | .object _ => true
  | _ => false

/-- `Node::TypeString`: the string naming the held variant, used in the
`As<T>` conversion-failure message. -/
def Node.typeString : Node → String
  | .null => "Null"
  | .string _ => "String"
  | .boolean _ => "Boolean"
  | .integer _ => "Integer"
  | .floating _ => "Floating"
  | .sequence _ => "Sequence"
  | .object _ => "Object"

/-- The `As<T>` failure message `std::format("Conversion {} -> {} failed.",
TypeString(), Demangle<T>())`. -/
def convFailMsg (actual target : String) : String :=
  s!"Conversion {actual} -> {target} failed."

/-- Stable identifier standing for `Demangle<Node::Integer>()` (the demangled
spelling of `std::int64_t`); the spec treats the exact demangled text as a
best-effort debug detail, so any stable name for the type suffices. -/
def integerTypeName : String := "long"

/-- Stable identifier standing for `Demangle<Node::Object>()`. -/
def objectTypeName : String := "std::unordered_map<std::string, Config::Node>"

/-- Stable identifier standing for `Demangle<Node::Sequence>()`. -/
def sequenceTypeName : String := "std::vector<Config::Node>"

/-- `Node::AsInteger` (const): a reference to the held integer, or the
`NodeError` that `As<Integer>` throws when the variant differs. -/
def Node.asInteger : Node → Except Fault Int
  | .integer i => .ok i
  | n => .error (.nodeError (convFailMsg n.typeString integerTypeName))

/-- `Node::Length`: element count for Sequence and Object, `0` otherwise. -/
def Node.length : Node → Nat
  | .sequence l => l.length
  | .object entries => entries.length
  | _ => 0

/-- Key lookup in the association list standing for the `unordered_map`
payload (`find`/`count`/`at`): the value at the unique matching key. -/
def lookupEntry : List (String × Node) → String → Option Node
  | [], _ => none
  | (k, v) :: t, field => if k = field then some v else lookupEntry t field

/-- Writing through the reference `unordered_map::operator[]` returned:
replace the value stored at the (present) key. -/
def setEntry : List (String × Node) → String → Node → List (String × Node)
  | [], field, v => [(field, v)]
  | (k, w) :: t, field, v =>
      if k = field then (k, v) :: t else (k, w) :: setEntry t field v

/-- The message of the mutable string subscript's `NodeError`:
`std::format("Cannot access field '{}' on non-object node.", field)`. -/
def fieldAccessMsg (field : String) : String :=
  s!"Cannot access field '{field}' on non-object node."

/-- `Node::operator[](const char *)` (mutable): rejects every variant other
than Object and Null with a `NodeError`; a Null node becomes an empty Object
first; then `AsObject()[field]` returns the child at the key, inserting a
default (Null) child when the key is absent.  The result pairs the node after
the call with the child the returned reference denotes. -/
def Node.subscriptMut : Node → String → Except Fault (Node × Node)
  | .null, field => .ok (.object [(field, .null)], .null)
  | .object entries, field =>
      match lookupEntry entries field with
      | some child => .ok (.object entries, child)
      | none => .ok (.object (entries ++ [(field, .null)]), .null)
  | _, field => .error (.nodeError (fieldAccessMsg field))

/-- `Node::operator[](const char *) const`: `AsObject().at(field)` — a
`NodeError` when the variant is not Object (from `As<Object>`), the
`std::out_of_range` of `unordered_map::at` when the key is absent, and the
child otherwise. -/
def Node.subscriptConst : Node → String → Except Fault Node
  | .object entries, field =>
      match lookupEntry entries field with
      | some child => .ok child
      | none => .error (.stdOutOfRange field)
  | n, _ => .error (.nodeError (convFailMsg n.typeString objectTypeName))

/-- Writing through the reference a mutable subscript returned: replace the
child stored at the key of an Object node. -/
def Node.setKey : Node → String → Node → Node
  | .object entries, field, v => .object (setEntry entries field v)
  | n, _, _ => n

/-- A chain of mutable string subscripts ending in an assignment, e.g.
`root["a"]["b"] = v`: each step is `Node::operator[](const char *)` and the
write at the end travels back through the returned references (each reference
aliases an entry of its parent's map, so writing the child updates that
entry).  An empty path is the assignment itself, which replaces the whole
value. -/
def Node.assignPath : Node → List String → Node → Except Fault Node
  | _, [], v => .ok v
  | n, field :: rest, v => do
      let (parent, child) ← n.subscriptMut field
      let updated ← child.assignPath rest v
      .ok (parent.setKey field updated)

/-- `Node::Push`: appends to a Sequence; a Null node becomes an empty
Sequence first; every other variant raises a `NodeError`. -/
def Node.push : Node → Node → Except Fault Node
  | .null, v => .ok (.sequence [v])
  | .sequence l, v => .ok (.sequence (l ++ [v]))
  | _, _ => .error (.nodeError "Cannot push to non-sequence node.")

/-- The out-of-bounds message of `Node::SubscriptOperator`:
`std::format("Index out of bounds\nIndex  : {}        \nLength : {}", index,
length)`. -/
def indexMsg (index length : Nat) : String :=
  s!"Index out of bounds\nIndex  : {index}        \nLength : {length}"

/-- `Node::SubscriptOperator(self, std::uint64_t index)`: a `NodeError` when
the node is not a Sequence; a `NodeError` carrying the index and the length
when `index >= Length()`; the element at the index otherwise. -/
def Node.subscriptOp : Node → Nat → Except Fault Node
  | .sequence l, index =>
      if index ≥ l.length then .error (.nodeError (indexMsg index l.length))
      else .ok (l.getD index .null)
  | _, _ => .error (.nodeError "Cannot access node. Node is not a sequence")

/-- The implicit conversion `int → std::uint64_t` at the call from
`Node::operator[](int)` into `SubscriptOperator`: reduction modulo `2^64`
(two's complement reinterpretation). -/
def intToUInt64 (i : Int) : Nat := (i % 18446744073709551616).toNat

/-- `Node::operator[](int)`: converts the signed index to `std::uint64_t` and
delegates to `SubscriptOperator`. -/
def Node.subscriptInt (n : Node) (index : Int) : Except Fault Node :=
  n.subscriptOp (intToUInt64 index)

/-- `Node::Contains`: `false` for any non-Object node, otherwise whether the
map holds the key. -/
def Node.contains : Node → String → Bool
  | .object entries, field => (lookupEntry entries field).isSome
  | _, _ => false

/-- `Node::ValueOr<T>` exactly as written for `T = int`:
`if constexpr (Is<T>())` makes the branch a compile-time constant, so which
branch runs is fixed per instantiation (the parameter `branch`) and cannot
depend on the runtime variant; the then-branch is `To<int>()`, which reads
the node through `AsInteger` and faults on a non-Integer variant.  (As
written the condition even reads the runtime variant through `this`, which is
not a constant expression; `branch` quantifies over every reading a compiler
could give it.) -/
def Node.valueOrAsWritten (branch : Bool) (n : Node) (default : Int) :
    Except Fault Int :=
  if branch then n.asInteger else .ok default

/-- Whether an `Except` result is a success. -/
def exceptOk {α : Type} : Except Fault α → Bool
  | .ok _ => true
  | .error _ => false

example : Node.push Node.null (Node.integer 3) = .ok (Node.sequence [Node.integer 3]) := rfl

example : Node.assignPath Node.null ["a", "b"] (Node.integer 1)
    = .ok (Node.object [("a", Node.object [("b", Node.integer 1)])]) := rfl

/-!
The YAML parse conversion of `src/module/format/yaml/source/parse.cc`.

The yaml-cpp document tree is modelled by `Yaml`: a parsed document node is
Null, a Scalar carrying its raw text, a Sequence, or a Map (`ConvertMap`
reads each key with `as<std::string>`, which always succeeds on a scalar
key, so keys are carried as strings); `undefined` stands for any other
`YAML::NodeType`, handled by the switch's default branch.
-/

inductive Yaml
  | null
  | scalar (text : String)
  | sequence (l : List Yaml)
  | map (entries : List (String × Yaml))
  | undefined

/-- Numeric value of a digit string (most significant first). -/
def digitsVal (l : List Char) : Nat :=
  l.foldl (fun a c => 10 * a + (c.toNat - 48)) 0

/-- A decimal integer lexeme: an optional sign followed by one or more
digits; no fractional or exponent part. -/
def parseDecInt (s : String) : Option Int :=
  match s.toList with
  | '-' :: rest =>
      if !rest.isEmpty && rest.all (·.isDigit) then some (-(digitsVal rest : Int)) else none
  | '+' :: rest =>
      if !rest.isEmpty && rest.all (·.isDigit) then some (digitsVal rest : Int) else none
  | rest =>
      if !rest.isEmpty && rest.all (·.isDigit) then some (digitsVal rest : Int) else none

/-- The exponent of a floating-point lexeme: an optional sign and digits. -/
def parseExp (l : List Char) : Option Int :=
  match l with
  | '-' :: d => if !d.isEmpty && d.all (·.isDigit) then some (-(digitsVal d : Int)) else none
  | '+' :: d => if !d.isEmpty && d.all (·.isDigit) then some (digitsVal d : Int) else none
  | d => if !d.isEmpty && d.all (·.isDigit) then some (digitsVal d : Int) else none

/-- An unsigned floating-point lexeme `digits [. digits] [e|E exp]` with at
least one mantissa digit, valued exactly as a rational.  (The textual
infinity/NaN spellings are not modelled; no checked property involves
them.) -/
def parseFloatAux (l : List Char) : Option Rat :=
  let ip := l.takeWhile (·.isDigit)
  let r1 := l.dropWhile (·.isDigit)
  let fp := match r1 with
    | '.' :: rest => rest.takeWhile (·.isDigit)
    | _ => []
  let r2 := match r1 with
    | '.' :: rest => rest.dropWhile (·.isDigit)
    | _ => r1
  if ip.isEmpty && fp.isEmpty then none
  else
    let base : Rat := (digitsVal ip : Rat) + (digitsVal fp : Rat) / ((10 : Rat) ^ fp.length)
    match r2 with
    | [] => some base
    | 'e' :: e => (parseExp e).map (fun k => base * (10 : Rat) ^ k)
    | 'E' :: e => (parseExp e).map (fun k => base * (10 : Rat) ^ k)
    | _ => none

/-- A floating-point lexeme with an optional sign. -/
def parseFloat (s : String) : Option Rat :=
  match s.toList with
  | '-' :: rest => (parseFloatAux rest).map (fun q => -q)
  | '+' :: rest => parseFloatAux rest
  | rest => parseFloatAux rest

/-- The boolean tokens the YAML conversion recognises (the yaml-cpp
`convert<bool>` spellings of true). -/
def boolTokensTrue : List String :=
  ["true", "True", "TRUE", "yes", "Yes", "YES", "on", "On", "ON", "y", "Y"]

/-- The boolean tokens the YAML conversion recognises (the spellings of
false). -/
def boolTokensFalse : List String :=
  ["false", "False", "FALSE", "no", "No", "NO", "off", "Off", "OFF", "n", "N"]

/-- A recognised boolean token and its value. -/
def parseBoolToken (s : String) : Option Bool :=
  if boolTokensTrue.contains s then some true
  else if boolTokensFalse.contains s then some false
  else none

/-- yaml-cpp `node.as<std::string>()` on a Scalar node: `convert<std::string>`
copies the scalar's raw text and always succeeds, so this is `some` on every
scalar. -/
def asYamlString (s : String) : Option String := some s

/-- yaml-cpp `node.as<std::int64_t>()` on a Scalar node: succeeds exactly on
a decimal integer lexeme.  (Unreachable in `ConvertScalar`, whose first,
always-successful branch already returned.) -/
def asYamlInteger (s : String) : Option Int := parseDecInt s

/-- yaml-cpp `node.as<double>()` on a Scalar node.  (Unreachable in
`ConvertScalar`.) -/
def asYamlFloating (s : String) : Option Rat := parseFloat s

/-- yaml-cpp `node.as<bool>()` on a Scalar node.  (Unreachable in
`ConvertScalar`.) -/
def asYamlBoolean (s : String) : Option Bool := parseBoolToken s

/-- `ConvertScalar` of `src/module/format/yaml/source/parse.cc`: try
`as<std::string>` first, and only on a `BadConversion` fall through to
`as<Integer>`, then `as<Floating>`, then `as<Boolean>`; a `BadConversion`
escaping the last branch reaches `Parse`'s catch and becomes a `ParseError`.
The first branch never fails, so every scalar yields a String node. -/
def convertScalar (s : String) : Except Fault Node :=
  match asYamlString s with
  | some v => .ok (.string v)
  | none =>
    match asYamlInteger s with
    | some v => .ok (.integer v)
    | none =>
      match asYamlFloating s with
      | some v => .ok (.floating (.finite v))
      | none =>
        match asYamlBoolean s with
        | some v => .ok (.boolean v)
        | none => .error (.parseError "bad conversion")

mutual

/-- `Convert` of `src/module/format/yaml/source/parse.cc`: Null, Scalar,
Sequence and Map are converted by the dedicated helpers; any other node type
raises `ParseError("UndefinedNodeType")`. -/
def yamlConvert : Yaml → Except Fault Node
  | .null => .ok .null
  | .scalar s => convertScalar s
  | .sequence l => yamlConvertSeq l Node.null
  | .map entries => yamlConvertMap entries Node.null
  | .undefined => .error (.parseError "UndefinedNodeType")

/-- `ConvertSequence`'s loop: `Node output;` starts Null and each element is
converted and pushed (`Push` turns the Null accumulator into a Sequence at
the first element). -/
def yamlConvertSeq : List Yaml → Node → Except Fault Node
  | [], acc => .ok acc
  | x :: t, acc => do
      let c ← yamlConvert x
      let acc2 ← acc.push c
      yamlConvertSeq t acc2

/-- `ConvertMap`'s loop: `output[field] = Convert(element)` for each entry
(the right operand is sequenced first; the mutable subscript vivifies the
Null accumulator and the assignment writes the converted child through the
returned reference). -/
def yamlConvertMap : List (String × Yaml) → Node → Except Fault Node
  | [], acc => .ok acc
  | (field, x) :: t, acc => do
      let c ← yamlConvert x
      let (parent, _) ← acc.subscriptMut field
      yamlConvertMap t (parent.setKey field c)

end

/-- The yaml-cpp document tree `YAML::Load` produces for the input
`ports:\n  - 8080\n  - 8081`: a map with one key whose value is a sequence
of the two scalars. -/
def portsDoc : Yaml :=
  .map [("ports", .sequence [.scalar "8080", .scalar "8081"])]

/-- Modelled from the spec: the contractual scalar resolution order of
§4.4 — a scalar that is lexically a valid integer becomes Integer; else a
valid floating-point literal becomes Floating; else a recognised boolean
token becomes Boolean; else String.  This definition follows the spec's
words (the code's `ConvertScalar` above is the source-level behaviour it is
compared with). -/
def resolveScalarSpec (s : String) : Node :=
  match parseDecInt s with
  | some v => .integer v
  | none =>
    match parseFloat s with
    | some q => .floating (.finite q)
    | none =>
      match parseBoolToken s with
      | some b => .boolean b
      | none => .string s

example : resolveScalarSpec "8080" = Node.integer 8080 := rfl
example : convertScalar "8080" = .ok (Node.string "8080") := rfl
example : yamlConvert portsDoc
    = .ok (.object [("ports", .sequence [.string "8080", .string "8081"])]) := rfl

/-!
The JSON codec.

The nlohmann document value is modelled by `Json`, one constructor per
`json::value_t`: `intNum` is `number_integer` (int64), `uintNum` is
`number_unsigned` (uint64), `floatNum` is `number_float` (double), `obj` is
a JSON object — nlohmann's default object container is `std::map`, so its
entries are unique-keyed and iterate sorted by key — and `binary` /
`discarded` are the two value kinds no text parse produces, reachable only
through the CBOR-style interfaces or parser callbacks.
-/

inductive Json
  | null
  | str (s : String)
  | bool (b : Bool)
  | intNum (i : Int)
  | uintNum (u : Nat)
  | floatNum (f : F64)
  | arr (l : List Json)
  | obj (entries : List (String × Json))
  | binary
  | discarded

/-- The `json::value_t` discriminant of a `Json` value (the numeric values
of nlohmann's enum, used in the sources-tree default-branch message). -/
def jsonTypeIndex : Json → Nat
  | .null => 0
  | .obj _ => 1
  | .arr _ => 2
  | .str _ => 3
  | .bool _ => 4
  | .intNum _ => 5
  | .uintNum _ => 6
  | .floatNum _ => 7
  | .binary => 8
  | .discarded => 9

/-- `static_cast<std::int64_t>` of a `std::uint64_t` value: two's-complement
wrap-around, as `json.get<Node::Integer>()` performs on a
`number_unsigned` value. -/
def i64OfU64 (u : Nat) : Int :=
  ((u : Int) + 9223372036854775808) % 18446744073709551616 - 9223372036854775808

/-- Strict lexicographic order on character lists: the `std::less<std::string>`
comparison `std::map` keys are ordered by, made directly computable. -/
def charListLt : List Char → List Char → Bool
  | [], [] => false
  | [], _ :: _ => true
  | _ :: _, [] => false
  | a :: as, b :: bs =>
      if a < b then true
      else if b < a then false
      else charListLt as bs

/-- The `std::map` key order on strings. -/
def keyLt (a b : String) : Bool := charListLt a.toList b.toList

/-- Insertion into the sorted unique-keyed entry list standing for a
`std::map<std::string, json>`: `output[field] = value` places a new key at
its ordered position and overwrites the value of a present key. -/
def mapInsert : List (String × Json) → String → Json → List (String × Json)
  | [], field, v => [(field, v)]
  | (k, w) :: t, field, v =>
      if keyLt field k then (field, v) :: (k, w) :: t
      else if keyLt k field then (k, w) :: mapInsert t field v
      else (k, v) :: t

/-- The object-building loop of the JSON `ConvertObject` dump helper:
each entry of the iterated container is inserted into the (initially empty)
nlohmann object `output` with `output[field] = ...`. -/
def buildMap : List (String × Json) → List (String × Json) → List (String × Json)
  | acc, [] => acc
  | acc, (field, v) :: t => buildMap (mapInsert acc field v) t

mutual

/-- `Convert` of `src/module/format/json/source/dump.cc` (the
`src/sources/format/json/dump.cc` copy is line-for-line the same mapping):
each variant maps to the corresponding nlohmann value; the Sequence and
Object helpers rebuild the container element-wise.  Every `As` accessor is
called under the matching `Type()` case, so no branch faults, and a
structurally valid tree always has a determined type, so the defensive
default branch (`DumpError`) is unreachable. -/
def jsonDump : Node → Json
  | .null => .null
  | .string s => .str s
  | .boolean b => .bool b
  | .integer i => .intNum i
  | .floating f => .floatNum f
  | .sequence l => .arr (jsonDumpList l)
  | .object entries => .obj (buildMap [] (jsonDumpEntries entries))

/-- `ConvertSequence` of the dump: `push_back` of each converted element in
iteration order. -/
def jsonDumpList : List Node → List Json
  | [] => []
  | x :: t => jsonDump x :: jsonDumpList t

/-- The entry-wise conversion `ConvertObject` performs before each
`output[field] =` insertion; the `unordered_map` iteration order feeding
`buildMap` is immaterial because the `std::map` result is the same for every
order of unique-keyed insertions (this model iterates the list order). -/
def jsonDumpEntries : List (String × Node) → List (String × Json)
  | [] => []
  | (k, v) :: t => (k, jsonDump v) :: jsonDumpEntries t

end

mutual

/-- Model of the external text round trip `json::parse(value.dump(4))`, per
nlohmann's documented behaviour: a finite double is serialised to a shortest
decimal that parses back to the identical double and re-classifies as
`number_float`; NaN and the infinities are serialised as `null`; a
`number_integer` re-classifies as `number_unsigned` when non-negative;
strings, booleans and null are literal; arrays keep their order; object
entries iterate and re-enter sorted and unique.  (`binary` and `discarded`
never come out of `Convert` in the dump path, so their images are
irrelevant; they are mapped to `null`.) -/
def reparse : Json → Json
  | .null => .null
  | .str s => .str s
  | .bool b => .bool b
  | .intNum i => if 0 ≤ i then .uintNum i.toNat else .intNum i
  | .uintNum u => .uintNum u
  | .floatNum f =>
      match f with
      | .finite q => .floatNum (.finite q)
      | _ => .null
  | .arr l => .arr (reparseList l)
  | .obj entries => .obj (reparseEntries entries)
  | .binary => .null
  | .discarded => .null

/-- Array elements of the text round trip, in order. -/
def reparseList : List Json → List Json
  | [] => []
  | x :: t => reparse x :: reparseList t

/-- Object entries of the text round trip: sorted unique keys re-enter the
parsed `std::map` in the same order. -/
def reparseEntries : List (String × Json) → List (String × Json)
  | [] => []
  | (k, v) :: t => (k, reparse v) :: reparseEntries t

end

mutual

/-- `Convert` of `src/module/format/json/source/parse.cc`: the eight mapped
`value_t` cases build the Node bottom-up (`number_integer` and
`number_unsigned` both through `get<Node::Integer>()`); the switch's
default branch returns a default-constructed `Node()` — a Null node. -/
def jsonConvertModule : Json → Except Fault Node
  | .null => .ok .null
  | .str s => .ok (.string s)
  | .bool b => .ok (.boolean b)
  | .intNum i => .ok (.integer i)
  | .uintNum u => .ok (.integer (i64OfU64 u))
  | .floatNum f => .ok (.floating f)
  | .arr l => jsonConvertModuleSeq l Node.null
  | .obj entries => jsonConvertModuleMap entries Node.null
  | .binary => .ok .null
  | .discarded => .ok .null

/-- `ConvertSequence` of the module parse: `Node output;` starts Null and
each converted element is pushed. -/
def jsonConvertModuleSeq : List Json → Node → Except Fault Node
  | [], acc => .ok acc
  | x :: t, acc => do
      let c ← jsonConvertModule x
      let acc2 ← acc.push c
      jsonConvertModuleSeq t acc2

/-- `ConvertObject` of the module parse: `output[field] = Convert(element)`
entry-wise over the parsed object (the right operand is sequenced first). -/
def jsonConvertModuleMap : List (String × Json) → Node → Except Fault Node
  | [], acc => .ok acc
  | (field, x) :: t, acc => do
      let c ← jsonConvertModule x
      let (parent, _) ← acc.subscriptMut field
      jsonConvertModuleMap t (parent.setKey field c)

end

/-- The `ParseError` message of the sources-tree `Convert`'s default branch:
`std::format("Undefined JsonType ({})", std::to_string(underlying))`. -/
def undefinedJsonTypeMsg (j : Json) : String :=
  let k := jsonTypeIndex j
  s!"Undefined JsonType ({k})"

mutual

/-- `Convert` of `src/sources/format/json/parse.cc`: identical to the module
copy on the eight mapped `value_t` cases, but the default branch throws
`ParseError("Undefined JsonType (...)")` instead of returning a Null
node. -/
def jsonConvertSources : Json → Except Fault Node
  | .null => .ok .null
  | .str s => .ok (.string s)
  | .bool b => .ok (.boolean b)
  | .intNum i => .ok (.integer i)
  | .uintNum u => .ok (.integer (i64OfU64 u))
  | .floatNum f => .ok (.floating f)
  | .arr l => jsonConvertSourcesSeq l Node.null
  | .obj entries => jsonConvertSourcesMap entries Node.null
  | .binary => .error (.parseError (undefinedJsonTypeMsg .binary))
  | .discarded => .error (.parseError (undefinedJsonTypeMsg .discarded))

/-- `ConvertSequence` of the sources parse (same loop as the module copy). -/
def jsonConvertSourcesSeq : List Json → Node → Except Fault Node
  | [], acc => .ok acc
  | x :: t, acc => do
      let c ← jsonConvertSources x
      let acc2 ← acc.push c
      jsonConvertSourcesSeq t acc2

/-- `ConvertObject` of the sources parse (same loop as the module copy). -/
def jsonConvertSourcesMap : List (String × Json) → Node → Except Fault Node
  | [], acc => .ok acc
  | (field, x) :: t, acc => do
      let c ← jsonConvertSources x
      let (parent, _) ← acc.subscriptMut field
      jsonConvertSourcesMap t (parent.setKey field c)

end

mutual

/-- Whether a `Json` value can result from `json::parse` of text: the parser
produces only the eight mapped value kinds — `binary` values exist only via
the binary-format readers and `discarded` only via parser callbacks — so a
parseable value contains neither anywhere. -/
def parseable : Json → Bool
  | .arr l => parseableList l
  | .obj entries => parseableEntries entries
  | .binary => false
  | .discarded => false
  | _ => true

/-- `parseable` over array elements. -/
def parseableList : List Json → Bool
  | [] => true
  | x :: t => parseable x && parseableList t

/-- `parseable` over object entries. -/
def parseableEntries : List (String × Json) → Bool
  | [] => true
  | (_, v) :: t => parseable v && parseableEntries t

end

/-- Pairwise strict key order (each key `keyLt` every later key): the
canonical-representative condition for the unique-keyed, unordered `Object`
payload, and the invariant of nlohmann's `std::map` entry lists. -/
def pairwiseKeysLt {α : Type} : List (String × α) → Bool
  | [] => true
  | (k, _) :: t => t.all (fun p => keyLt k p.1) && pairwiseKeysLt t

/-- Whether an `Int` is a value of `std::int64_t` (every `Node::Integer`
payload is). -/
def intInI64 (i : Int) : Bool :=
  decide (-9223372036854775808 ≤ i) && decide (i < 9223372036854775808)

mutual

/-- A structurally well-formed `Node` tree in canonical form: Integer
payloads in the int64 range (as the C++ type guarantees), Floating payloads
finite, every Sequence and Object non-empty, and Object entry lists sorted
with unique keys — the canonical list representative of the unordered,
unique-keyed map payload. -/
def Node.wf : Node → Bool
  | .null => true
  | .string _ => true
  | .boolean _ => true
  | .integer i => intInI64 i
  | .floating f => f.isFinite
  | .sequence l => !l.isEmpty && Node.wfList l
  | .object entries =>
      !entries.isEmpty && pairwiseKeysLt entries && Node.wfEntries entries

/-- `Node.wf` over sequence elements. -/
def Node.wfList : List Node → Bool
  | [] => true
  | x :: t => x.wf && Node.wfList t

/-- `Node.wf` over object entries. -/
def Node.wfEntries : List (String × Node) → Bool
  | [] => true
  | (_, v) :: t => v.wf && Node.wfEntries t

end

/-- `JsonFormat::Parse(JsonFormat::Dump(n))` through the module codec: dump
the tree to a nlohmann value, serialise and re-parse the text (`reparse`),
and convert back to a Node. -/
def jsonRoundTrip (n : Node) : Except Fault Node :=
  jsonConvertModule (reparse (jsonDump n))

example : jsonRoundTrip (Node.sequence []) = .ok Node.null := rfl
example : jsonRoundTrip (Node.object [("a", Node.integer 1)])
    = .ok (Node.object [("a", Node.integer 1)]) := rfl
example : jsonRoundTrip (Node.floating F64.nan) = .ok Node.null := rfl
example : jsonConvertSources (Json.arr [Json.intNum (-2), Json.uintNum 7])
    = jsonConvertModule (Json.arr [Json.intNum (-2), Json.uintNum 7]) := rfl

/-!
Claim theorems: the Node access contracts and the YAML scalar resolution.
-/

/-- C1: the contractual YAML scalar resolution (Integer, then Floating, then
Boolean, then String) against the code.  `ConvertScalar` tries
`as<std::string>` first and that conversion succeeds on every scalar, so the
`ports` document parses to two String nodes; the spec-mandated resolution
applied to the same scalar yields an Integer node. -/
theorem yaml_scalar_resolution_c1 :
    yamlConvert portsDoc
      = .ok (.object [("ports", .sequence [.string "8080", .string "8081"])])
    ∧ convertScalar "8080" = .ok (Node.string "8080")
    ∧ (Node.string "8080").isInteger = false
    ∧ resolveScalarSpec "8080" = Node.integer 8080 :=
  ⟨rfl, rfl, rfl, rfl⟩

/-- C3: the read-only string subscript requires the Object variant (a
non-Object receiver faults with the `As<Object>` conversion `NodeError`),
faults with the distinct missing-key fault (`std::out_of_range` from
`unordered_map::at`) when the key is absent, and returns the stored child
unchanged when the key is present. -/
theorem const_subscript_contract_c3 :
    (∀ (n : Node) (field : String), n.isObject = false →
        n.subscriptConst field
          = .error (.nodeError (convFailMsg n.typeString objectTypeName)))
    ∧ (∀ (entries : List (String × Node)) (field : String),
        lookupEntry entries field = none →
        Node.subscriptConst (.object entries) field
          = .error (.stdOutOfRange field))
    ∧ (∀ (entries : List (String × Node)) (field : String) (child : Node),
        lookupEntry entries field = some child →
        Node.subscriptConst (.object entries) field = .ok child)
    ∧ (∀ (field message : String),
        Fault.stdOutOfRange field ≠ Fault.nodeError message) := by
  refine ⟨fun n field h => ?_, fun entries field h => ?_,
      fun entries field child h => ?_, fun _ _ h => Fault.noConfusion h⟩
  · cases n <;> simp_all [Node.subscriptConst, Node.isObject]
  · simp [Node.subscriptConst, h]
  · simp [Node.subscriptConst, h]

/-- C3 witness: the three fault/success cases at concrete inputs. -/
theorem const_subscript_contract_c3_witness :
    Node.subscriptConst (Node.integer 5) "x"
      = .error (.nodeError (convFailMsg (Node.integer 5).typeString objectTypeName))
    ∧ Node.subscriptConst (.object [("a", Node.integer 1)]) "x"
        = .error (.stdOutOfRange "x")
    ∧ Node.subscriptConst (.object [("a", Node.integer 1)]) "a"
        = .ok (Node.integer 1) :=
  ⟨const_subscript_contract_c3.1 (Node.integer 5) "x" rfl,
    const_subscript_contract_c3.2.1 [("a", Node.integer 1)] "x" rfl,
    const_subscript_contract_c3.2.2.1 [("a", Node.integer 1)] "a" (Node.integer 1) rfl⟩

/-- C4: `ValueOr` as written selects its branch with
`if constexpr (Is<T>())`, a per-instantiation compile-time constant, so the
result cannot depend on the runtime variant: with the branch fixed to the
conversion, `Node("hi").ValueOr<int>(42)` faults instead of returning 42;
with the branch fixed to the default, `Node(42).ValueOr<int>(0)` returns 0
instead of the held 42.  (`Contains`, the claim's other half, is total as
claimed: true exactly on an Object holding the key.) -/
theorem valueor_compiletime_branch_c4 :
    Node.valueOrAsWritten true (Node.string "hi") 42
      = .error (.nodeError (convFailMsg "String" integerTypeName))
    ∧ Node.valueOrAsWritten false (Node.integer 42) 0 = .ok 0
    ∧ (∀ (entries : List (String × Node)) (field : String),
        Node.contains (.object entries) field = (lookupEntry entries field).isSome)
    ∧ (∀ (n : Node) (field : String), n.isObject = false →
        n.contains field = false) := by
  refine ⟨rfl, rfl, fun entries field => rfl, fun n field h => ?_⟩
  cases n <;> simp_all [Node.contains, Node.isObject]

/-- C5: the mutable string subscript succeeds exactly on Object and Null
receivers; it vivifies a Null receiver into a one-entry Object; a chained
write `root["a"]["b"] = 1` on a fresh Null root builds the nested Objects
with Integer 1 at the leaf; and every other variant faults with the
`NodeError` naming the field. -/
theorem mutable_subscript_contract_c5 :
    (∀ (n : Node) (field : String),
        exceptOk (n.subscriptMut field) = (n.isObject || n.isNull))
    ∧ (∀ (n : Node) (field : String), n.isObject = false → n.isNull = false →
        n.subscriptMut field = .error (.nodeError (fieldAccessMsg field)))
    ∧ (∀ field : String,
        Node.subscriptMut Node.null field = .ok (.object [(field, .null)], .null))
    ∧ Node.assignPath Node.null ["a", "b"] (Node.integer 1)
        = .ok (.object [("a", .object [("b", .integer 1)])])
    ∧ Node.subscriptMut (Node.integer 5) "x"
        = .error (.nodeError (fieldAccessMsg "x")) := by
  refine ⟨fun n field => ?_, fun n field h1 h2 => ?_, fun field => rfl, rfl, rfl⟩
  · cases n with
    | object entries =>
        cases h : lookupEntry entries field <;>
          simp [Node.subscriptMut, h, exceptOk, Node.isObject, Node.isNull]
    | _ => simp [Node.subscriptMut, exceptOk, Node.isObject, Node.isNull]
  · cases n <;> simp_all [Node.subscriptMut, Node.isObject, Node.isNull]

/-- C5 witness: the fault case of the second conjunct at a concrete
non-Object, non-Null receiver. -/
theorem mutable_subscript_contract_c5_witness :
    Node.subscriptMut (Node.boolean true) "k"
      = .error (.nodeError (fieldAccessMsg "k")) :=
  mutable_subscript_contract_c5.2.1 (Node.boolean true) "k" rfl rfl

/-- C6: `Push` appends to a Sequence, vivifies a Null receiver into a
one-element Sequence, and faults with the `NodeError` (leaving the functional
receiver unchanged) on every other variant, an Object in particular. -/
theorem push_contract_c6 :
    (∀ v : Node, Node.push Node.null v = .ok (.sequence [v]))
    ∧ (∀ (l : List Node) (v : Node),
        Node.push (.sequence l) v = .ok (.sequence (l ++ [v])))
    ∧ (∀ (n v : Node), n.isSequence = false → n.isNull = false →
        n.push v = .error (.nodeError "Cannot push to non-sequence node."))
    ∧ Node.push (.object [("a", Node.integer 1)]) Node.null
        = .error (.nodeError "Cannot push to non-sequence node.") := by
  refine ⟨fun v => rfl, fun l v => rfl, fun n v h1 h2 => ?_, rfl⟩
  cases n <;> simp_all [Node.push, Node.isSequence, Node.isNull]

/-- C6 witness: the fault case of the third conjunct at a concrete String
receiver. -/
theorem push_contract_c6_witness :
    Node.push (Node.string "s") Node.null
      = .error (.nodeError "Cannot push to non-sequence node.") :=
  push_contract_c6.2.2.1 (Node.string "s") Node.null rfl rfl

/-- C7: sequence index access is totally guarded — in bounds it returns the
element at the index, out of bounds it faults with the `NodeError` whose
message carries both the index and the length, and on a non-Sequence
receiver it faults without touching any element. -/
theorem sequence_index_guard_c7 :
    (∀ (l : List Node) (index : Nat) (h : index < l.length),
        Node.subscriptOp (.sequence l) index = .ok (l.get ⟨index, h⟩))
    ∧ (∀ (l : List Node) (index : Nat), l.length ≤ index →
        Node.subscriptOp (.sequence l) index
          = .error (.nodeError (indexMsg index l.length)))
    ∧ (∀ (index length : Nat), ∃ a b : String,
        indexMsg index length = a ++ toString index ++ b ++ toString length)
    ∧ (∀ (n : Node) (index : Nat), n.isSequence = false →
        n.subscriptOp index
          = .error (.nodeError "Cannot access node. Node is not a sequence")) := by
  refine ⟨fun l index h => ?_, fun l index h => ?_, fun index length => ?_,
      fun n index h => ?_⟩
  · simp [Node.subscriptOp, Nat.not_le.mpr h, List.getD_eq_getElem?_getD,
      List.getElem?_eq_getElem h]
  · simp [Node.subscriptOp, h]
  · exact ⟨"Index out of bounds\nIndex  : ", "        \nLength : ", by
      simp only [indexMsg, toString, String.append_assoc, String.append_empty]⟩
  · cases n <;> simp_all [Node.subscriptOp, Node.isSequence]

/-- C7 witness: the in-bounds, out-of-bounds and non-Sequence cases at
concrete inputs. -/
theorem sequence_index_guard_c7_witness :
    Node.subscriptOp (.sequence [Node.integer 7, Node.null]) 0
      = .ok ([Node.integer 7, Node.null].get ⟨0, by decide⟩)
    ∧ Node.subscriptOp (.sequence []) 0
        = .error (.nodeError (indexMsg 0 ([] : List Node).length))
    ∧ Node.subscriptOp (Node.integer 5) 0
        = .error (.nodeError "Cannot access node. Node is not a sequence") :=
  ⟨sequence_index_guard_c7.1 [Node.integer 7, Node.null] 0 (by decide),
    sequence_index_guard_c7.2.1 [] 0 (by decide),
    sequence_index_guard_c7.2.2.2 (Node.integer 5) 0 rfl⟩

/-- C9: the mutable string subscript on an Object that lacks the key does
not fault — it appends the key with a fresh Null child and hands that child
back, growing the Object's length by exactly one. -/
theorem absent_key_vivify_c9 (entries : List (String × Node)) (field : String)
    (h : lookupEntry entries field = none) :
    Node.subscriptMut (.object entries) field
      = .ok (.object (entries ++ [(field, .null)]), .null)
    ∧ (Node.object (entries ++ [(field, .null)])).length
        = (Node.object entries).length + 1
    ∧ Node.isNull .null = true := by
  simp [Node.subscriptMut, h, Node.length, Node.isNull]

/-- C9 witness: inserting an absent key into a one-entry Object. -/
theorem absent_key_vivify_c9_witness :
    Node.subscriptMut (.object [("a", Node.integer 1)]) "b"
      = .ok (.object ([("a", Node.integer 1)] ++ [("b", Node.null)]), .null)
    ∧ (Node.object ([("a", Node.integer 1)] ++ [("b", Node.null)])).length
        = (Node.object [("a", Node.integer 1)]).length + 1
    ∧ Node.isNull .null = true :=
  absent_key_vivify_c9 [("a", Node.integer 1)] "b" rfl

/-- C10: the public index subscript converts its `int` argument to
`std::uint64_t` before the bounds check, so every negative index becomes a
value of at least `2^63`, and on any Sequence a vector can hold (fewer than
`2^63` elements) the check `index >= Length()` fails and the out-of-bounds
`NodeError` is raised — a negative index never reaches an element. -/
theorem negative_index_always_faults_c10 (index : Int)
    (h1 : -2147483648 ≤ index) (h2 : index < 0) :
    9223372036854775808 ≤ intToUInt64 index
    ∧ ∀ l : List Node, l.length < 9223372036854775808 →
        Node.subscriptInt (.sequence l) index
          = .error (.nodeError (indexMsg (intToUInt64 index) l.length)) := by
  have hi : 9223372036854775808 ≤ intToUInt64 index := by
    unfold intToUInt64; omega
  refine ⟨hi, fun l hl => ?_⟩
  simp [Node.subscriptInt, Node.subscriptOp, le_trans (le_of_lt hl) hi]

/-- C10 witness: index `-1` on a one-element Sequence. -/
theorem negative_index_always_faults_c10_witness :
    9223372036854775808 ≤ intToUInt64 (-1)
    ∧ Node.subscriptInt (.sequence [Node.null]) (-1)
        = .error (.nodeError (indexMsg (intToUInt64 (-1)) [Node.null].length)) :=
  ⟨(negative_index_always_faults_c10 (-1) (by decide) (by decide)).1,
    (negative_index_always_faults_c10 (-1) (by decide) (by decide)).2
      [Node.null] (by decide)⟩

/-!
Helper lemmas for the codec proofs.
-/

/-- Bind of a successful `Except` step. -/
theorem exceptBind_ok {α β : Type} (a : α) (f : α → Except Fault β) :
    (do let x ← (.ok a : Except Fault α); f x) = f a := rfl

/-- Bind of a failed `Except` step. -/
theorem exceptBind_error {α β : Type} (e : Fault) (f : α → Except Fault β) :
    (do let x ← (.error e : Except Fault α); f x) = .error e := rfl

/-- Elements of a parseable array are parseable. -/
theorem parseableList_mem : ∀ {l : List Json}, parseableList l = true →
    ∀ x ∈ l, parseable x = true
  | [], _, x, hx => absurd hx (List.not_mem_nil x)
  | y :: t, h, x, hx => by
      rw [parseableList, Bool.and_eq_true] at h
      rcases List.mem_cons.mp hx with he | ht
      · exact he ▸ h.1
      · exact parseableList_mem h.2 x ht

/-- Values of a parseable object are parseable. -/
theorem parseableEntries_mem : ∀ {l : List (String × Json)},
    parseableEntries l = true → ∀ p ∈ l, parseable p.2 = true
  | [], _, p, hp => absurd hp (List.not_mem_nil p)
  | (k, v) :: t, h, p, hp => by
      rw [parseableEntries, Bool.and_eq_true] at h
      rcases List.mem_cons.mp hp with he | ht
      · exact he ▸ h.1
      · exact parseableEntries_mem h.2 p ht

/-- The two `ConvertSequence` loops agree whenever the element conversions
agree. -/
theorem jsonConvertSeq_agree : ∀ (l : List Json),
    (∀ x ∈ l, jsonConvertSources x = jsonConvertModule x) →
    ∀ acc : Node, jsonConvertSourcesSeq l acc = jsonConvertModuleSeq l acc
  | [], _, acc => rfl
  | x :: t, h, acc => by
      have hx : jsonConvertSources x = jsonConvertModule x := h x (by simp)
      have ht := fun y hy => h y (List.mem_cons_of_mem x hy)
      rw [jsonConvertSourcesSeq, jsonConvertModuleSeq, hx]
      cases jsonConvertModule x with
      | error e => rw [exceptBind_error, exceptBind_error]
      | ok c =>
          rw [exceptBind_ok, exceptBind_ok]
          cases acc.push c with
          | error e => rw [exceptBind_error, exceptBind_error]
          | ok acc2 =>
              rw [exceptBind_ok, exceptBind_ok]
              exact jsonConvertSeq_agree t ht acc2

/-- The two `ConvertObject` loops agree whenever the value conversions
agree. -/
theorem jsonConvertMap_agree : ∀ (l : List (String × Json)),
    (∀ p ∈ l, jsonConvertSources p.2 = jsonConvertModule p.2) →
    ∀ acc : Node, jsonConvertSourcesMap l acc = jsonConvertModuleMap l acc
  | [], _, acc => rfl
  | (field, x) :: t, h, acc => by
      have hx : jsonConvertSources x = jsonConvertModule x := h (field, x) (by simp)
      have ht := fun p hp => h p (List.mem_cons_of_mem (field, x) hp)
      rw [jsonConvertSourcesMap, jsonConvertModuleMap, hx]
      cases jsonConvertModule x with
      | error e => rw [exceptBind_error, exceptBind_error]
      | ok c =>
          rw [exceptBind_ok, exceptBind_ok]
          cases acc.subscriptMut field with
          | error e => rw [exceptBind_error, exceptBind_error]
          | ok pc =>
              rw [exceptBind_ok, exceptBind_ok]
              exact jsonConvertMap_agree t ht (pc.1.setKey field c)

/-- The two `Convert` implementations agree on every parseable value
(well-founded on the value's size). -/
theorem jsonConvert_agree_aux : ∀ (fuel : Nat) (j : Json), sizeOf j ≤ fuel →
    parseable j = true → jsonConvertSources j = jsonConvertModule j := by
  intro fuel
  induction fuel with
  | zero => intro j h _; exfalso; cases j <;> simp_arith at h
  | succ m ih =>
      intro j hsz hp
      cases j with
      | null => rfl
      | str s => rfl
      | bool b => rfl
      | intNum i => rfl
      | uintNum u => rfl
      | floatNum f => rfl
      | binary => simp [parseable] at hp
      | discarded => simp [parseable] at hp
      | arr l =>
          rw [parseable] at hp
          have hsl : sizeOf l ≤ m := by simp_arith at hsz; omega
          have hx : ∀ x ∈ l, jsonConvertSources x = jsonConvertModule x := by
            intro x hxl
            have := List.sizeOf_lt_of_mem hxl
            exact ih x (by omega) (parseableList_mem hp x hxl)
          rw [jsonConvertSources, jsonConvertModule]
          exact jsonConvertSeq_agree l hx Node.null
      | obj entries =>
          rw [parseable] at hp
          have hsl : sizeOf entries ≤ m := by simp_arith at hsz; omega
          have hx : ∀ p ∈ entries, jsonConvertSources p.2 = jsonConvertModule p.2 := by
            intro p hpl
            have h1 := List.sizeOf_lt_of_mem hpl
            have h2 : sizeOf p.2 < sizeOf p := by
              obtain ⟨k, v⟩ := p; simp_arith
            exact ih p.2 (by omega) (parseableEntries_mem hp p hpl)
          rw [jsonConvertSources, jsonConvertModule]
          exact jsonConvertMap_agree entries hx Node.null

/-- C8: the two parallel JSON parse conversions are extensionally equal on
every value `json::parse` can produce from text (text never yields the
`binary` or `discarded` kinds, the only point where the two copies' default
branches differ), so for every input text the two `Parse` entry points
either build equal trees or both fail with the same `ParseError`. -/
theorem json_parse_copies_agree_c8 (j : Json) (h : parseable j = true) :
    jsonConvertSources j = jsonConvertModule j :=
  jsonConvert_agree_aux (sizeOf j) j le_rfl h

/-- C8 witness: agreement on a concrete nested document. -/
theorem json_parse_copies_agree_c8_witness :
    jsonConvertSources
        (Json.obj [("a", Json.arr [Json.intNum 1, Json.str "s"]), ("b", Json.null)])
      = jsonConvertModule
        (Json.obj [("a", Json.arr [Json.intNum 1, Json.str "s"]), ("b", Json.null)]) :=
  json_parse_copies_agree_c8
    (Json.obj [("a", Json.arr [Json.intNum 1, Json.str "s"]), ("b", Json.null)]) rfl

/-- `charListLt` is irreflexive. -/
theorem charListLt_irrefl : ∀ l : List Char, charListLt l l = false
  | [] => rfl
  | c :: t => by simp [charListLt, charListLt_irrefl t]

/-- `charListLt` is asymmetric. -/
theorem charListLt_asymm : ∀ {a b : List Char},
    charListLt a b = true → charListLt b a = false
  | [], [], h => by simp [charListLt] at h
  | [], _ :: _, _ => rfl
  | _ :: _, [], h => by simp [charListLt] at h
  | x :: xs, y :: ys, h => by
      rcases lt_trichotomy x y with hlt | heq | hgt
      · simp [charListLt, hlt, not_lt_of_lt hlt]
      · subst heq
        simp only [charListLt, lt_irrefl, if_false] at h ⊢
        exact charListLt_asymm h
      · simp [charListLt, hgt, not_lt_of_lt hgt] at h

/-- `keyLt` is irreflexive. -/
theorem keyLt_irrefl (a : String) : keyLt a a = false := charListLt_irrefl _

/-- `keyLt` is asymmetric. -/
theorem keyLt_asymm {a b : String} (h : keyLt a b = true) : keyLt b a = false :=
  charListLt_asymm h

/-- `keyLt`-related keys differ. -/
theorem keyLt_ne {a b : String} (h : keyLt a b = true) : a ≠ b := by
  intro he
  rw [he, keyLt_irrefl] at h
  exact Bool.false_ne_true h

/-- Inserting a key above every key of a sorted map appends it. -/
theorem mapInsert_append {field : String} {v : Json} :
    ∀ acc : List (String × Json), (∀ p ∈ acc, keyLt p.1 field = true) →
      mapInsert acc field v = acc ++ [(field, v)]
  | [], _ => rfl
  | (k, w) :: t, h => by
      have hk : keyLt k field = true := h (k, w) (by simp)
      simp [mapInsert, keyLt_asymm hk, hk,
        mapInsert_append t (fun p hp => h p (List.mem_cons_of_mem (k, w) hp))]

/-- Splitting a pairwise-sorted entry list: every left key is below every
right key, and the right part is pairwise sorted. -/
theorem pairwiseKeysLt_append_mem {α : Type} :
    ∀ {xs ys : List (String × α)}, pairwiseKeysLt (xs ++ ys) = true →
      (∀ x ∈ xs, ∀ y ∈ ys, keyLt x.1 y.1 = true) ∧ pairwiseKeysLt ys = true
  | [], ys, h => ⟨by simp, by simpa using h⟩
  | (k, v) :: t, ys, h => by
      rw [List.cons_append, pairwiseKeysLt, Bool.and_eq_true, List.all_append,
        Bool.and_eq_true] at h
      obtain ⟨⟨_, hys⟩, hrest⟩ := h
      obtain ⟨ih1, ih2⟩ := pairwiseKeysLt_append_mem hrest
      refine ⟨fun x hx y hy => ?_, ih2⟩
      rcases List.mem_cons.mp hx with he | ht
      · exact he ▸ List.all_eq_true.mp hys y hy
      · exact ih1 x ht y hy

/-- `buildMap` reproduces an already-sorted unique-keyed entry list. -/
theorem buildMap_sorted : ∀ (l acc : List (String × Json)),
    pairwiseKeysLt (acc ++ l) = true → buildMap acc l = acc ++ l
  | [], acc, _ => by simp [buildMap]
  | (k, v) :: t, acc, h => by
      have hmem := pairwiseKeysLt_append_mem h
      have hins : mapInsert acc k v = acc ++ [(k, v)] :=
        mapInsert_append acc (fun p hp => hmem.1 p hp (k, v) (by simp))
      have h2 : pairwiseKeysLt ((acc ++ [(k, v)]) ++ t) = true := by
        simpa [List.append_assoc] using h
      rw [buildMap, hins, buildMap_sorted t (acc ++ [(k, v)]) h2]
      simp

/-- Mapping over the values of an entry list changes no key, so any
all-keys test is unchanged. -/
theorem allKeys_map {α β : Type} (g : α → β) (q : String → Bool) :
    ∀ t : List (String × α),
      ((t.map (fun p => (p.1, g p.2))).all fun p => q p.1)
        = (t.all fun p => q p.1)
  | [] => rfl
  | (k, v) :: t => by
      simp only [List.map_cons, List.all_cons, allKeys_map g q t]

/-- Mapping over the values of an entry list keeps its key order. -/
theorem pairwiseKeysLt_map {α β : Type} (g : α → β) :
    ∀ l : List (String × α),
      pairwiseKeysLt (l.map (fun p => (p.1, g p.2))) = pairwiseKeysLt l
  | [] => rfl
  | (k, v) :: t => by
      simp only [List.map_cons, pairwiseKeysLt, pairwiseKeysLt_map g t,
        allKeys_map g (fun s => keyLt k s) t]

/-- `jsonDumpList` is the element-wise dump. -/
theorem jsonDumpList_eq_map : ∀ l : List Node, jsonDumpList l = l.map jsonDump
  | [] => rfl
  | x :: t => by rw [jsonDumpList, jsonDumpList_eq_map t, List.map_cons]

/-- `jsonDumpEntries` is the value-wise dump. -/
theorem jsonDumpEntries_eq_map : ∀ l : List (String × Node),
    jsonDumpEntries l = l.map (fun p => (p.1, jsonDump p.2))
  | [] => rfl
  | (k, v) :: t => by rw [jsonDumpEntries, jsonDumpEntries_eq_map t, List.map_cons]

/-- `reparseList` is the element-wise text round trip. -/
theorem reparseList_eq_map : ∀ l : List Json, reparseList l = l.map reparse
  | [] => rfl
  | x :: t => by rw [reparseList, reparseList_eq_map t, List.map_cons]

/-- `reparseEntries` is the value-wise text round trip. -/
theorem reparseEntries_eq_map : ∀ l : List (String × Json),
    reparseEntries l = l.map (fun p => (p.1, reparse p.2))
  | [] => rfl
  | (k, v) :: t => by rw [reparseEntries, reparseEntries_eq_map t, List.map_cons]

/-- Elements of a well-formed sequence payload are well-formed. -/
theorem wfList_mem : ∀ {l : List Node}, Node.wfList l = true →
    ∀ x ∈ l, x.wf = true
  | [], _, x, hx => absurd hx (List.not_mem_nil x)
  | y :: t, h, x, hx => by
      rw [Node.wfList, Bool.and_eq_true] at h
      rcases List.mem_cons.mp hx with he | ht
      · exact he ▸ h.1
      · exact wfList_mem h.2 x ht

/-- Values of a well-formed object payload are well-formed. -/
theorem wfEntries_mem : ∀ {l : List (String × Node)}, Node.wfEntries l = true →
    ∀ p ∈ l, p.2.wf = true
  | [], _, p, hp => absurd hp (List.not_mem_nil p)
  | (k, v) :: t, h, p, hp => by
      rw [Node.wfEntries, Bool.and_eq_true] at h
      rcases List.mem_cons.mp hp with he | ht
      · exact he ▸ h.1
      · exact wfEntries_mem h.2 p ht

/-- A key below none of the stored keys is absent. -/
theorem lookupEntry_eq_none {field : String} :
    ∀ {l : List (String × Node)}, (∀ p ∈ l, p.1 ≠ field) →
      lookupEntry l field = none
  | [], _ => rfl
  | (k, v) :: t, h => by
      rw [lookupEntry, if_neg (h (k, v) (by simp)),
        lookupEntry_eq_none (fun p hp => h p (List.mem_cons_of_mem (k, v) hp))]

/-- Writing the key appended at the end of an entry list whose earlier keys
differ replaces only that last entry. -/
theorem setEntry_append {field : String} {x v : Node} :
    ∀ {l : List (String × Node)}, (∀ p ∈ l, p.1 ≠ field) →
      setEntry (l ++ [(field, x)]) field v = l ++ [(field, v)]
  | [], _ => by simp [setEntry]
  | (k, w) :: t, h => by
      rw [List.cons_append, setEntry, if_neg (h (k, w) (by simp)),
        setEntry_append (fun p hp => h p (List.mem_cons_of_mem (k, w) hp)),
        List.cons_append]

/-- The module `ConvertSequence` loop over successfully converting elements
extends a Sequence accumulator in order. -/
theorem convertSeqModule_append (g : Node → Json) :
    ∀ l : List Node, (∀ x ∈ l, jsonConvertModule (g x) = .ok x) →
      ∀ acc : List Node,
        jsonConvertModuleSeq (l.map g) (.sequence acc) = .ok (.sequence (acc ++ l))
  | [], _, acc => by simp [jsonConvertModuleSeq]
  | x :: t, h, acc => by
      rw [List.map_cons, jsonConvertModuleSeq, h x (by simp), exceptBind_ok,
        Node.push, exceptBind_ok,
        convertSeqModule_append g t (fun y hy => h y (List.mem_cons_of_mem x hy))
          (acc ++ [x])]
      simp

/-- The module `ConvertSequence` loop from the Null accumulator builds the
whole Sequence (the first push vivifies the accumulator). -/
theorem convertSeqModule_start (g : Node → Json) (l : List Node) (hne : l ≠ [])
    (h : ∀ x ∈ l, jsonConvertModule (g x) = .ok x) :
    jsonConvertModuleSeq (l.map g) Node.null = .ok (.sequence l) := by
  cases l with
  | nil => exact absurd rfl hne
  | cons x t =>
      rw [List.map_cons, jsonConvertModuleSeq, h x (by simp), exceptBind_ok,
        Node.push, exceptBind_ok,
        convertSeqModule_append g t (fun y hy => h y (List.mem_cons_of_mem x hy)) [x]]
      simp

/-- The module `ConvertObject` loop over successfully converting entries with
fresh, increasing keys extends an Object accumulator in order. -/
theorem convertMapModule_append (g : Node → Json) :
    ∀ l : List (String × Node),
      (∀ p ∈ l, jsonConvertModule (g p.2) = .ok p.2) →
      pairwiseKeysLt l = true →
      ∀ acc : List (String × Node),
        (∀ p ∈ acc, ∀ q ∈ l, keyLt p.1 q.1 = true) →
        jsonConvertModuleMap (l.map (fun p => (p.1, g p.2))) (.object acc)
          = .ok (.object (acc ++ l))
  | [], _, _, acc, _ => by simp [jsonConvertModuleMap]
  | (k, v) :: t, h, hpw, acc, hacc => by
      have hne : ∀ p ∈ acc, p.1 ≠ k :=
        fun p hp => keyLt_ne (hacc p hp (k, v) (by simp))
      rw [pairwiseKeysLt, Bool.and_eq_true] at hpw
      have hstep : ∀ p ∈ acc ++ [(k, v)], ∀ q ∈ t, keyLt p.1 q.1 = true := by
        intro p hp q hq
        rcases List.mem_append.mp hp with hl | hr
        · exact hacc p hl q (List.mem_cons_of_mem (k, v) hq)
        · have : p = (k, v) := by simpa using hr
          exact this ▸ List.all_eq_true.mp hpw.1 q hq
      have hrec := convertMapModule_append g t
        (fun p hp => h p (List.mem_cons_of_mem (k, v) hp)) hpw.2
        (acc ++ [(k, v)]) hstep
      simp only [List.map_cons, jsonConvertModuleMap, h (k, v) (by simp),
        exceptBind_ok, Node.subscriptMut, lookupEntry_eq_none hne,
        Node.setKey, setEntry_append hne, hrec]
      simp

/-- The module `ConvertObject` loop from the Null accumulator builds the
whole Object (the first subscript vivifies the accumulator). -/
theorem convertMapModule_start (g : Node → Json) (l : List (String × Node))
    (hne : l ≠ []) (hpw : pairwiseKeysLt l = true)
    (h : ∀ p ∈ l, jsonConvertModule (g p.2) = .ok p.2) :
    jsonConvertModuleMap (l.map (fun p => (p.1, g p.2))) Node.null
      = .ok (.object l) := by
  cases l with
  | nil => exact absurd rfl hne
  | cons p t =>
      obtain ⟨k, v⟩ := p
      rw [pairwiseKeysLt, Bool.and_eq_true] at hpw
      have hstep : ∀ q ∈ ([(k, v)] : List (String × Node)), ∀ r ∈ t,
          keyLt q.1 r.1 = true := by
        intro q hq r hr
        have : q = (k, v) := by simpa using hq
        exact this ▸ List.all_eq_true.mp hpw.1 r hr
      have hrec := convertMapModule_append g t
        (fun p hp => h p (List.mem_cons_of_mem (k, v) hp)) hpw.2
        [(k, v)] hstep
      simp only [List.map_cons, jsonConvertModuleMap, h (k, v) (by simp),
        exceptBind_ok, Node.subscriptMut, Node.setKey, setEntry, if_pos,
        hrec]
      simp

/-- `static_cast<int64_t>` undoes `Int.toNat` on int64-range non-negative
values. -/
theorem i64OfU64_toNat {i : Int} (h0 : 0 ≤ i) (h1 : i < 9223372036854775808) :
    i64OfU64 i.toNat = i := by
  unfold i64OfU64; omega

/-- The module-codec round trip is the identity on well-formed canonical
trees (well-founded on the tree's size). -/
theorem jsonRoundTrip_wf_aux : ∀ (fuel : Nat) (n : Node), sizeOf n ≤ fuel →
    n.wf = true → jsonRoundTrip n = .ok n := by
  intro fuel
  induction fuel with
  | zero => intro n h _; exfalso; cases n <;> simp_arith at h
  | succ m ih =>
      intro n hsz hwf
      cases n with
      | null => rfl
      | string s => rfl
      | boolean b => rfl
      | integer i =>
          rw [Node.wf, intInI64, Bool.and_eq_true, decide_eq_true_eq,
            decide_eq_true_eq] at hwf
          by_cases h0 : 0 ≤ i
          · simp only [jsonRoundTrip, jsonDump, reparse, if_pos h0,
              jsonConvertModule, i64OfU64_toNat h0 hwf.2]
          · simp only [jsonRoundTrip, jsonDump, reparse, if_neg h0,
              jsonConvertModule]
      | floating f =>
          cases f with
          | finite q => rfl
          | nan => simp [Node.wf, F64.isFinite] at hwf
          | inf => simp [Node.wf, F64.isFinite] at hwf
          | ninf => simp [Node.wf, F64.isFinite] at hwf
      | sequence l =>
          rw [Node.wf, Bool.and_eq_true] at hwf
          have hne : l ≠ [] := by intro he; subst he; simp at hwf
          have hsl : sizeOf l ≤ m := by simp_arith at hsz; omega
          have hpt : ∀ x ∈ l, jsonConvertModule (reparse (jsonDump x)) = .ok x := by
            intro x hx
            have hlt := List.sizeOf_lt_of_mem hx
            exact ih x (by omega) (wfList_mem hwf.2 x hx)
          simp only [jsonRoundTrip, jsonDump, reparse, jsonConvertModule]
          rw [jsonDumpList_eq_map, reparseList_eq_map, List.map_map]
          exact convertSeqModule_start (fun x => reparse (jsonDump x)) l hne hpt
      | object entries =>
          rw [Node.wf, Bool.and_eq_true, Bool.and_eq_true] at hwf
          obtain ⟨⟨hne0, hpw⟩, hwfe⟩ := hwf
          have hne : entries ≠ [] := by intro he; subst he; simp at hne0
          have hsl : sizeOf entries ≤ m := by simp_arith at hsz; omega
          have hpt : ∀ p ∈ entries,
              jsonConvertModule (reparse (jsonDump p.2)) = .ok p.2 := by
            intro p hp
            have h1 := List.sizeOf_lt_of_mem hp
            have h2 : sizeOf p.2 < sizeOf p := by obtain ⟨a, b⟩ := p; simp_arith
            exact ih p.2 (by omega) (wfEntries_mem hwfe p hp)
          simp only [jsonRoundTrip, jsonDump]
          rw [jsonDumpEntries_eq_map,
            buildMap_sorted _ []
              (by rw [List.nil_append, pairwiseKeysLt_map]; exact hpw),
            List.nil_append]
          simp only [reparse]
          rw [reparseEntries_eq_map, List.map_map]
          simp only [jsonConvertModule]
          exact convertMapModule_start (fun x => reparse (jsonDump x)) entries
            hne hpw hpt

/-- C2 counterexample: the claimed round-trip identity fails at the empty
Sequence — `ConvertSequence` in the parse starts from a default-constructed
(Null) `output` and never pushes for an empty array, so `Parse(Dump(n))`
yields Null, not the empty Sequence (the same happens to the empty Object,
and a non-finite Floating value dumps as JSON `null` and comes back Null). -/
theorem json_roundtrip_empty_sequence_c2 :
    jsonRoundTrip (Node.sequence []) = .ok Node.null
    ∧ Node.null ≠ Node.sequence []
    ∧ jsonRoundTrip (Node.object []) = .ok Node.null
    ∧ jsonRoundTrip (Node.floating F64.nan) = .ok Node.null :=
  ⟨rfl, fun h => Node.noConfusion h, rfl, rfl⟩

/-- C2 (amended): `JsonFormat::Parse(JsonFormat::Dump(n))` succeeds and
reconstructs `n` for every tree whose Sequences and Objects are non-empty
and whose Floating values are finite (`n.wf` also fixes the canonical sorted
order of the association lists standing for the unordered unique-keyed
Object payloads, and the int64 range of Integer payloads that the C++ type
already guarantees). -/
theorem json_roundtrip_amended_c2 (n : Node) (h : n.wf = true) :
    jsonRoundTrip n = .ok n :=
  jsonRoundTrip_wf_aux (sizeOf n) n le_rfl h

/-- C2 witness: the round trip on a concrete nested document. -/
theorem json_roundtrip_amended_c2_witness :
    jsonRoundTrip (Node.object [("a", Node.integer 1),
        ("b", Node.sequence [Node.boolean true, Node.string "s"])])
      = .ok (Node.object [("a", Node.integer 1),
        ("b", Node.sequence [Node.boolean true, Node.string "s"])]) :=
  json_roundtrip_amended_c2
    (Node.object [("a", Node.integer 1),
      ("b", Node.sequence [Node.boolean true, Node.string "s"])]) rfl
